import Mathlib

/-!
Verification of the icon-conversion core of `app-builder` (`icons/icns.go`).

The Go source is shallowly embedded below.  External collaborators
(filesystem stat, image decode, PNG encode, resizing, directory collection,
temp-file creation, the ICO writer) are abstracted into an `Env` record of
pure functions, exactly mirroring the collaborator contracts the code calls.
Fallible collaborators return `Except Unit` results; the embedding wraps
their failures into the pipeline's error taxonomy.  Side effects that the
claims talk about (image decodes, temp-file creation, invocations of the ICO
writer, size-validation probes) are recorded as an explicit event trace that
every embedded function returns alongside its result.
-/

/-- A decoded raster image, abstracted to its pixel dimensions
(`Bounds().Max.X` / `Bounds().Max.Y` in the Go source). -/
structure Image where
  width : Nat
  height : Nat
deriving DecidableEq

/-- The slice of `os.FileInfo` the code consults (`IsDir`). -/
structure FileInfo where
  isDir : Bool
deriving DecidableEq

/-- Go struct `IconInfo` (a produced artifact): a file path and a pixel size.
Go's zero value `0` stands for "no associated size". -/
structure IconInfo where
  file : String
  size : Nat
deriving DecidableEq

/-- Error taxonomy of the pipeline.  Collaborator failures surface as
`ioError` / `decodeError` (the Go code wraps them with `errors.WithStack`,
which preserves the cause; the claims only need the kind).
`imageSizeError f m` models the two-argument `NewImageSizeError(file,
recommendedMinSize)` call; `notFound` and `unknownFormat` carry the exact
formatted message the Go code builds; `outOfRange` models the Go panic on
indexing an empty collected-icons slice. -/
inductive ConvErr where
  | statError
  | notFound (msg : String)
  | ioError
  | decodeError
  | imageSizeError (file : String) (requiredMinSize : Nat)
  | unknownFormat (msg : String)
  | outOfRange
deriving DecidableEq

/-- Observable collaborator invocations recorded by the embedding:
`decode p` = a call of the raw decoder `LoadImage(p)`;
`validate f` = a call of `validateImageSize(f, _)`;
`tmpFile suffix` = creation of a fresh output file via `util.TempFile`;
`saveIco img f` = handing `img` to the external ICO writer `SaveImage2`. -/
inductive Event where
  | decode (path : String)
  | validate (file : String)
  | tmpFile (suffix : String)
  | saveIco (img : Image) (file : String)
deriving DecidableEq

/-- The external collaborators consumed by the core, as pure functions.
`stat` returns `none` for any `os.Stat` error (the code only distinguishes
success from failure); `isAbs`, `clean` and `join` model `filepath.IsAbs`,
`filepath.Clean` and `filepath.Join` of the host platform. -/
structure Env where
  stat : String → Option FileInfo
  isAbs : String → Bool
  clean : String → String
  join : String → String → String
  /-- Models `ioutil.ReadFile`. -/
  readFile : String → Except Unit (List Nat)
  /-- Models `fs.ReadFile(file, n)`: the first `n` bytes. -/
  readFirstBytes : String → Nat → Except Unit (List Nat)
  /-- Models `IsIco` sniffing on the first bytes. -/
  isIco : List Nat → Bool
  /-- Models `GetIcoSizes`: declared (width, height) pairs of an ICO directory. -/
  icoSizes : List Nat → List (Nat × Nat)
  /-- Models `DecodeImageConfig`: header-only (width, height). -/
  decodeImageConfig : String → Except Unit (Nat × Nat)
  /-- Models `LoadImage`: full raster decode. -/
  loadImageFile : String → Except Unit Image
  /-- Models `imaging.Resize(img, w, h, imaging.Lanczos)`. -/
  resize : Image → Nat → Nat → Image
  /-- Models `png.Encode` into a fresh buffer. -/
  pngEncode : Image → List Nat
  /-- Models `CollectIcons(dir)`: ascending (size, path) collection. -/
  collectIcons : String → Except Unit (List IconInfo)
  /-- Models `ConvertIcnsToPng`. -/
  convertIcnsToPng : String → Except Unit (List IconInfo)
  /-- Models `util.TempFile("", suffix)`: the fresh file's final name. -/
  tempFile : String → String
  /-- Models `SaveImage2(img, outFile, ICO)`. -/
  saveImage2 : Image → String → Except Unit Unit

deriving instance DecidableEq for Except

/-- Bytes of an ASCII string (Go `[]byte(s)`). -/
def strBytes (s : String) : List Nat :=
  s.toList.map Char.toNat

/-- Models `binary.BigEndian.PutUint32` of `uint32(n)`: the four big-endian bytes
of `n` reduced modulo `2^32`. -/
def beUint32 (n : Nat) : List Nat :=
  let m := n % 2 ^ 32
  [m / 2 ^ 24 % 256, m / 2 ^ 16 % 256, m / 2 ^ 8 % 256, m % 256]

/-- Reads four bytes back as a big-endian unsigned integer. -/
def beDecode (bs : List Nat) : Nat :=
  bs.foldl (fun acc b => acc * 256 + b) 0

/-- Go `strings.HasSuffix`. -/
def hasSuffix (s suffix : String) : Bool :=
  suffix.toList.isSuffixOf s.toList

/-- The Go `icnsHeader` byte constant — the magic "icns". -/
def icnsMagic : List Nat := [0x69, 0x63, 0x6e, 0x73]

/-- The Go `icnsExpectedSizes` constant: 16, 32, 64, 128, 256, 512, 1024. -/
def icnsExpectedSizes : List Nat := [16, 32, 64, 128, 256, 512, 1024]

/-- The `sizeToType` map: canonical size to its ordered OSType tags.
A size outside the table yields `[]`, matching a Go map miss. -/
def sizeToType : Nat → List String
  | 16 => ["icp4"]
  | 32 => ["icp5", "ic11"]
  | 64 => ["icp6", "ic12"]
  | 128 => ["ic07"]
  | 256 => ["ic08", "ic13"]
  | 512 => ["ic09", "ic14"]
  | 1024 => ["ic10"]
  | _ => []

/-- Go struct `InputFileInfo`.  The `SizeToPath` map is a function to
`Option`; `maxImage` is the lazily-populated master-image cache. -/
structure InputFileInfo where
  MaxIconSize : Nat
  MaxIconPath : String
  SizeToPath : Nat → Option String
  maxImage : Option Image
  recommendedMinSize : Nat

/-- Embeds the relative case of `resolveSourceFileOrNull`: try `filepath.Join(root,
sourceFile)` under each root in order; any `os.Stat` failure is logged and
skipped; no match under any root yields `none` (Go `nil, nil, nil`). -/
def statLoop (env : Env) (sourceFile : String) : List String → Option (String × FileInfo)
  | [] => none
  | root :: rest =>
    let resolvedPath := env.join root sourceFile
    match env.stat resolvedPath with
    | some fileInfo => some (resolvedPath, fileInfo)
    | none => statLoop env sourceFile rest

/-- Embeds `resolveSourceFileOrNull`: an absolute candidate is cleaned and stat'ed
directly, and a stat failure is returned as an error; a relative candidate
is probed under each root, failures skipped.  `Except.ok none` is the Go
`nil, nil, nil` "not found, no error" result. -/
def resolveSourceFileOrNull (env : Env) (sourceFile : String) (roots : List String) :
    Except ConvErr (Option (String × FileInfo)) :=
  if env.isAbs sourceFile then
    let cleanPath := env.clean sourceFile
    match env.stat cleanPath with
    | some fileInfo => .ok (some (cleanPath, fileInfo))
    | none => .error .statError
  else
    .ok (statLoop env sourceFile roots)

/-- The loop body of `resolveSourceFile` over the candidate list: each
candidate is tried, then (when an extra extension is configured) its
fallback-extension variant, with the special case mapping candidate
`"icons"` to `"icon.png"` for extension `".png"`. -/
def resolveLoop (env : Env) (roots : List String) (extraExtension : String) :
    List String → Except ConvErr (Option (String × FileInfo))
  | [] => .ok none
  | sourceFile :: rest =>
    match resolveSourceFileOrNull env sourceFile roots with
    | .error e => .error e
    | .ok (some r) => .ok (some r)
    | .ok none =>
      if extraExtension ≠ "" then
        let candidate :=
          if extraExtension = ".png" ∧ sourceFile = "icons" then "icon.png"
          else sourceFile ++ extraExtension
        match resolveSourceFileOrNull env candidate roots with
        | .error e => .error e
        | .ok (some r) => .ok (some r)
        | .ok none => resolveLoop env roots extraExtension rest
      else
        resolveLoop env roots extraExtension rest

/-- Embeds `resolveSourceFile`: first match wins; exhaustion yields the
`icon source "a, b" not found` error naming the original candidates. -/
def resolveSourceFile (env : Env) (sourceFiles : List String) (roots : List String)
    (extraExtension : String) : Except ConvErr (String × FileInfo) :=
  match resolveLoop env roots extraExtension sourceFiles with
  | .error e => .error e
  | .ok (some r) => .ok r
  | .ok none =>
    .error (.notFound ("icon source \"" ++ String.intercalate ", " sourceFiles ++ "\" not found"))

/-- The raw decoder `LoadImage` (no size policy), with its invocation
recorded in the trace. -/
def LoadImage (env : Env) (path : String) : Except ConvErr Image × List Event :=
  match env.loadImageFile path with
  | .error _ => (.error .decodeError, [Event.decode path])
  | .ok img => (.ok img, [Event.decode path])

/-- Embeds `loadImage(sourceFile, recommendedMinSize)`: decode, then reject the
image when either dimension is below the required minimum. -/
def loadImage (env : Env) (sourceFile : String) (recommendedMinSize : Nat) :
    Except ConvErr Image × List Event :=
  match LoadImage env sourceFile with
  | (.error e, evs) => (.error e, evs)
  | (.ok result, evs) =>
    if result.width < recommendedMinSize ∨ result.height < recommendedMinSize then
      (.error (.imageSizeError sourceFile recommendedMinSize), evs)
    else
      (.ok result, evs)

/-- Embeds `InputFileInfo.GetMaxImage`: return the cached master image, or load it
through the size-checked `loadImage` (the receiver is a value in Go, so the
cache write is local to the call). -/
def GetMaxImage (env : Env) (t : InputFileInfo) : Except ConvErr Image × List Event :=
  match t.maxImage with
  | some img => (.ok img, [])
  | none => loadImage env t.MaxIconPath t.recommendedMinSize

/-- Embeds `validateImageSize`: sniff the first 512 bytes; an ICO container passes
when any declared size meets the minimum in both dimensions, any other file
passes when its decoded header dimensions do; otherwise the size error. -/
def validateImageSize (env : Env) (file : String) (recommendedMinSize : Nat) :
    Except ConvErr Unit × List Event :=
  match env.readFirstBytes file 512 with
  | .error _ => (.error .ioError, [Event.validate file])
  | .ok firstFileBytes =>
    if env.isIco firstFileBytes then
      if (env.icoSizes firstFileBytes).any
          (fun wh => decide (recommendedMinSize ≤ wh.1) && decide (recommendedMinSize ≤ wh.2)) then
        (.ok (), [Event.validate file])
      else
        (.error (.imageSizeError file recommendedMinSize), [Event.validate file])
    else
      match env.decodeImageConfig file with
      | .error _ => (.error .decodeError, [Event.validate file])
      | .ok wh =>
        if recommendedMinSize ≤ wh.1 ∧ recommendedMinSize ≤ wh.2 then
          (.ok (), [Event.validate file])
        else
          (.error (.imageSizeError file recommendedMinSize), [Event.validate file])

/-- The inner tag loop of `ConvertToIcns`: for each OSType of the size,
append the 4 tag bytes, the 4-byte big-endian `len(payload) + 8` field, and
the payload bytes. -/
def writeTags (imageData : List Nat) : List String → List Nat
  | [] => []
  | ostype :: rest =>
    strBytes ostype ++ beUint32 (imageData.length + 8) ++ imageData ++ writeTags imageData rest

/-- Sequencing step of the encoder loop: prepend the chunk bytes produced
for the current size to the rest of the body, threading errors and events. -/
def chunkJoin (chunkBytes : List Nat) (evs0 : List Event)
    (r : Except ConvErr (List Nat × Option Image) × List Event) :
    Except ConvErr (List Nat × Option Image) × List Event :=
  match r with
  | (.error e, evs) => (.error e, evs0 ++ evs)
  | (.ok (body, cache), evs) => (.ok (chunkBytes ++ body, cache), evs0 ++ evs)

/-- Payload acquisition for one retained size (the body of the size loop in
`ConvertToIcns` before the tag loop): a pre-rendered file's bytes are read
verbatim; otherwise the master image — taken from the loop's cache, or
decoded on first use via the raw `LoadImage` and cached — is resized to the
size and PNG-encoded.  Returns the payload with the updated cache. -/
def acquirePayload (env : Env) (stp : Nat → Option String) (maxIconPath : String)
    (size : Nat) (cache : Option Image) :
    Except ConvErr (List Nat × Option Image) × List Event :=
  match stp size with
  | some existingFile =>
    match env.readFile existingFile with
    | .error _ => (.error .ioError, [])
    | .ok imageData => (.ok (imageData, cache), [])
  | none =>
    match cache with
    | some img => (.ok (env.pngEncode (env.resize img size size), some img), [])
    | none =>
      match env.loadImageFile maxIconPath with
      | .error _ => (.error .decodeError, [Event.decode maxIconPath])
      | .ok img =>
        (.ok (env.pngEncode (env.resize img size size), some img), [Event.decode maxIconPath])

/-- The size loop of `ConvertToIcns`: sizes above `MaxIconSize` are skipped
(never upscale); each retained size's payload is acquired and its chunk
group (one chunk per OSType tag) appended to the body.  Returns the body
bytes and the final cache. -/
def convertLoop (env : Env) (stp : Nat → Option String) (maxIconPath : String)
    (maxIconSize : Nat) :
    List Nat → Option Image → Except ConvErr (List Nat × Option Image) × List Event
  | [], cache => (.ok ([], cache), [])
  | size :: rest, cache =>
    if maxIconSize < size then
      convertLoop env stp maxIconPath maxIconSize rest cache
    else
      match acquirePayload env stp maxIconPath size cache with
      | (.error e, evs) => (.error e, evs)
      | (.ok (imageData, cache2), evs) =>
        chunkJoin (writeTags imageData (sizeToType size)) evs
          (convertLoop env stp maxIconPath maxIconSize rest cache2)

/-- Embeds `ConvertToIcns`: run the size loop over the canonical sizes, then write
the magic, the big-endian `body length + 8` field, and the body to a fresh
temp file, returning its name (paired here with the written bytes). -/
def ConvertToIcns (env : Env) (inputInfo : InputFileInfo) :
    Except ConvErr (String × List Nat) × List Event :=
  match convertLoop env inputInfo.SizeToPath inputInfo.MaxIconPath inputInfo.MaxIconSize
      icnsExpectedSizes inputInfo.maxImage with
  | (.error e, evs) => (.error e, evs)
  | (.ok (body, _), evs) =>
    (.ok (env.tempFile ".icns", icnsMagic ++ beUint32 (body.length + 8) ++ body),
     evs ++ [Event.tmpFile ".icns"])

/-- Embeds `outputFormatToSingleFileExtension`. -/
def outputFormatToSingleFileExtension (outputFormat : String) : String :=
  if outputFormat = "set" then ".png" else "." ++ outputFormat

/-- The `SizeToPath` map built from a collected directory: Go writes every
`(size, file)` pair in order, so the last icon of a size wins. -/
def dirSizeToPath (icons : List IconInfo) : Nat → Option String :=
  fun s => (icons.reverse.find? (fun i => i.size == s)).map IconInfo.file

/-- The `InputFileInfo` as built in the directory branch of `ConvertIcon`. -/
def dirInputInfo (icons : List IconInfo) (maxIcon : IconInfo) (recMin : Nat) : InputFileInfo :=
  { MaxIconSize := maxIcon.size
    MaxIconPath := maxIcon.file
    SizeToPath := dirSizeToPath icons
    maxImage := none
    recommendedMinSize := recMin }

/-- The `InputFileInfo` as built in the single-image branch of `ConvertIcon`:
the (possibly ICO-capped) decoded image is the cached master, its width is
the maximum size, that size maps to the resolved path, and `MaxIconPath`
stays at its zero value. -/
def singleInputInfo (resolvedPath : String) (maxImage : Image) (recMin : Nat) : InputFileInfo :=
  { MaxIconSize := maxImage.width
    MaxIconPath := ""
    SizeToPath := fun s => if s == maxImage.width then some resolvedPath else none
    maxImage := some maxImage
    recommendedMinSize := recMin }

/-- The final `switch outputFormat` of `ConvertIcon`: ICNS encoding, ICO
encoding via the (possibly cached) master image, or the default branch,
which formats the *resolved path* into the `unknown output format %s`
message. -/
def dispatchFormat (env : Env) (inputInfo : InputFileInfo) (resolvedPath : String)
    (outputFormat : String) : Except ConvErr (List IconInfo) × List Event :=
  if outputFormat = "icns" then
    match ConvertToIcns env inputInfo with
    | (.error e, evs) => (.error e, evs)
    | (.ok (file, _), evs) => (.ok [⟨file, 0⟩], evs)
  else if outputFormat = "ico" then
    match GetMaxImage env inputInfo with
    | (.error e, evs) => (.error e, evs)
    | (.ok maxImage, evs) =>
      let outFile := env.tempFile ".ico"
      match env.saveImage2 maxImage outFile with
      | .error _ =>
        (.error .ioError, evs ++ [Event.tmpFile ".ico", Event.saveIco maxImage outFile])
      | .ok _ =>
        (.ok [⟨outFile, 0⟩], evs ++ [Event.tmpFile ".ico", Event.saveIco maxImage outFile])
  else
    (.error (.unknownFormat ("unknown output format " ++ resolvedPath)), [])

/-- Embeds `ConvertIcon`: resolve the source (with the format's extension as
fallback), classify it (passthrough / directory / single image), apply the
per-format minimum-size policy where the Go code does, and dispatch on the
output format. -/
def ConvertIcon (env : Env) (sourceFiles : List String) (roots : List String)
    (outputFormat : String) : Except ConvErr (List IconInfo) × List Event :=
  let outExt := outputFormatToSingleFileExtension outputFormat
  match resolveSourceFile env sourceFiles roots outExt with
  | .error e => (.error e, [])
  | .ok (resolvedPath, fileInfo) =>
    let recMin := if outputFormat = "icns" then 512 else 256
    if hasSuffix resolvedPath outExt then
      if outputFormat ≠ "icns" then
        match validateImageSize env resolvedPath recMin with
        | (.error e, evs) => (.error e, evs)
        | (.ok _, evs) => (.ok [⟨resolvedPath, 0⟩], evs)
      else
        (.ok [⟨resolvedPath, 0⟩], [])
    else if fileInfo.isDir then
      match env.collectIcons resolvedPath with
      | .error _ => (.error .ioError, [])
      | .ok icons =>
        if outputFormat = "set" then
          (.ok icons, [])
        else
          match icons.getLast? with
          | none => (.error .outOfRange, [])
          | some maxIcon =>
            dispatchFormat env (dirInputInfo icons maxIcon recMin) resolvedPath outputFormat
    else
      if outputFormat = "set" ∧ hasSuffix resolvedPath ".icns" then
        match env.convertIcnsToPng resolvedPath with
        | .error _ => (.error .ioError, [])
        | .ok result => (.ok result, [])
      else
        match loadImage env resolvedPath recMin with
        | (.error e, evs) => (.error e, evs)
        | (.ok maxImage0, evs) =>
          let maxImage :=
            if outputFormat = "ico" ∧ 256 < maxImage0.width then
              env.resize maxImage0 256 256
            else
              maxImage0
          match dispatchFormat env (singleInputInfo resolvedPath maxImage recMin) resolvedPath
              outputFormat with
          | (r, evs2) => (r, evs ++ evs2)

/-! ## Specification-level reconstructions

The following definitions restate, in the spec's own terms, what the claims
say the code produces; the theorems below compare the embedded source
against them. -/

/-- The canonical sizes an encoding run includes: catalog sizes that do not
exceed the master size. -/
def includedSizes (maxIconSize : Nat) : List Nat :=
  icnsExpectedSizes.filter (fun s => decide (s ≤ maxIconSize))

/-- Spec-level chunk group for one size: for each OSType tag of the size, the
4 tag bytes, the big-endian `payload length + 8` field, and the payload
verbatim — the payload physically duplicated per tag. -/
def specSizeChunks (size : Nat) (payload : List Nat) : List Nat :=
  ((sizeToType size).map
    (fun tag => strBytes tag ++ beUint32 (payload.length + 8) ++ payload)).flatten

/-- Spec-level ICNS body: the chunk groups of the included sizes, in
ascending catalog order. -/
def specBody (maxIconSize : Nat) (payload : Nat → List Nat) : List Nat :=
  ((includedSizes maxIconSize).map (fun s => specSizeChunks s (payload s))).flatten

/-- Spec-level ICNS file: magic, big-endian `body length + 8`, body. -/
def specFile (maxIconSize : Nat) (payload : Nat → List Nat) : List Nat :=
  icnsMagic ++ beUint32 ((specBody maxIconSize payload).length + 8) ++
    specBody maxIconSize payload

/-- The master image an encoding run works from: the cached decoded image if
present, otherwise the decode of `MaxIconPath`. -/
def masterImageOf (env : Env) (info : InputFileInfo) : Except Unit Image :=
  match info.maxImage with
  | some img => .ok img
  | none => env.loadImageFile info.MaxIconPath

/-- The payload a size receives: the stored file's bytes verbatim when the
per-size mapping has one, otherwise the PNG encoding of the master resized
to that exact size. -/
def specPayload (env : Env) (info : InputFileInfo) (size : Nat) : Except Unit (List Nat) :=
  match info.SizeToPath size with
  | some f => env.readFile f
  | none => (masterImageOf env info).map (fun m => env.pngEncode (env.resize m size size))

/-- The fallback-extension variant of a candidate name (the `"icons"` to
`"icon.png"` special case included). -/
def fallbackName (extraExtension sourceFile : String) : String :=
  if extraExtension = ".png" ∧ sourceFile = "icons" then "icon.png"
  else sourceFile ++ extraExtension

/-- The attempt sequence a candidate contributes: itself, then (when an
extension is configured) its fallback variant. -/
def attemptNames (extraExtension sourceFile : String) : List String :=
  if extraExtension = "" then [sourceFile]
  else [sourceFile, fallbackName extraExtension sourceFile]

/-- Walks a flat attempt list: the first attempt that resolves wins; an
attempt whose (absolute-path) probe errors aborts resolution with that
error; exhaustion yields `none`. -/
def firstMatch (env : Env) (roots : List String) :
    List String → Except ConvErr (Option (String × FileInfo))
  | [] => .ok none
  | attempt :: rest =>
    match resolveSourceFileOrNull env attempt roots with
    | .error e => .error e
    | .ok (some r) => .ok (some r)
    | .ok none => firstMatch env roots rest

/-- Spec-level resolution, following the amended claim: expand every
candidate into its attempt sequence, walk the flat list with `firstMatch`,
and report the `not found` error naming the original candidates only when
every attempt came back empty without an abort. -/
def specResolve (env : Env) (sourceFiles : List String) (roots : List String)
    (extraExtension : String) : Except ConvErr (String × FileInfo) :=
  match firstMatch env roots ((sourceFiles.map (attemptNames extraExtension)).flatten) with
  | .error e => .error e
  | .ok (some r) => .ok r
  | .ok none =>
    .error (.notFound ("icon source \"" ++ String.intercalate ", " sourceFiles ++ "\" not found"))

theorem resolveLoop_eq_firstMatch (env : Env) (roots : List String) (ext : String)
    (files : List String) :
    resolveLoop env roots ext files =
      firstMatch env roots ((files.map (attemptNames ext)).flatten) := by
  induction files with
  | nil => rfl
  | cons f rest ih =>
    simp only [List.map_cons, List.flatten_cons, attemptNames]
    by_cases hext : ext = ""
    · subst hext
      simp only [if_pos rfl, List.singleton_append, resolveLoop, firstMatch]
      cases h : resolveSourceFileOrNull env f roots with
      | error e => rfl
      | ok o =>
        cases o with
        | some r => rfl
        | none => simpa using ih
    · rw [if_neg hext]
      simp only [List.cons_append, List.nil_append, resolveLoop, firstMatch]
      cases h : resolveSourceFileOrNull env f roots with
      | error e => rfl
      | ok o =>
        cases o with
        | some r => rfl
        | none =>
          simp only [if_pos (show ext ≠ "" from hext), fallbackName]
          cases h2 : resolveSourceFileOrNull env
              (if ext = ".png" ∧ f = "icons" then "icon.png" else f ++ ext) roots with
          | error e => rfl
          | ok o2 =>
            cases o2 with
            | some r2 => rfl
            | none => simpa using ih

/-- C3 — amended claim. Source resolution expands each candidate name in
order into an attempt sequence (the candidate, then its fallback-extension
variant when an extension is configured, with `"icons"` mapping to
`"icon.png"` for `.png`); attempts are walked in order, an absolute attempt
is stat'ed directly and a stat failure there aborts resolution immediately
with that error (the fallback variant and remaining candidates are NOT
tried), a relative attempt is joined to each root in order with failures
skipped; the first existing match (file or directory) wins; only when every
attempt comes back empty without such an abort does resolution fail with the
NotFound error naming the original candidate names. -/
theorem c3_resolution_first_match_amended (env : Env) (sourceFiles roots : List String)
    (extraExtension : String) :
    resolveSourceFile env sourceFiles roots extraExtension =
      specResolve env sourceFiles roots extraExtension := by
  unfold resolveSourceFile specResolve
  rw [resolveLoop_eq_firstMatch]

/-- An `Env` in which every collaborator fails or is inert; concrete
scenarios override the fields they need. -/
def baseEnv : Env where
  stat _ := none
  isAbs _ := false
  clean s := s
  join root file := root ++ "/" ++ file
  readFile _ := .error ()
  readFirstBytes _ _ := .error ()
  isIco _ := false
  icoSizes _ := []
  decodeImageConfig _ := .error ()
  loadImageFile _ := .error ()
  resize _ w h := ⟨w, h⟩
  pngEncode _ := [7, 7]
  collectIcons _ := .error ()
  convertIcnsToPng _ := .error ()
  tempFile suffix := "/tmp/out" ++ suffix
  saveImage2 _ _ := .ok ()

/-- Environment of the C3 counterexample: the absolute candidate `/a` does
not exist, while the relative candidate `b`'s fallback variant `b.png`
exists under the root `/r`. -/
def resolveCexEnv : Env :=
  { baseEnv with
    stat := fun s => if s = "/r/b.png" then some ⟨false⟩ else none
    isAbs := fun s => s = "/a" }

/-- C3 — counterexample. The claim says a failing absolute-path candidate
still lets resolution proceed to the remaining candidates; in this
environment the later candidate `b` resolves (to `/r/b.png`) when tried
alone, yet with the failing absolute candidate `/a` first, resolution aborts
with the stat error instead of proceeding. -/
theorem c3_absolute_candidate_aborts_cex :
    resolveSourceFile resolveCexEnv ["/a", "b"] ["/r"] ".png" = .error .statError ∧
    resolveSourceFile resolveCexEnv ["b"] ["/r"] ".png" = .ok ("/r/b.png", ⟨false⟩) := by
  constructor
  · rfl
  · rfl

theorem writeTags_eq (imageData : List Nat) (tags : List String) :
    writeTags imageData tags =
      (tags.map (fun tag => strBytes tag ++ beUint32 (imageData.length + 8) ++ imageData)).flatten := by
  induction tags with
  | nil => rfl
  | cons t rest ih => simp [writeTags, ih]

theorem exceptMap_ok {α β : Type} {f : α → β} {x : Except Unit α} {y : β}
    (h : x.map f = .ok y) : ∃ a, x = .ok a ∧ y = f a := by
  cases x with
  | error e => simp [Except.map] at h
  | ok a => exact ⟨a, rfl, by simpa [Except.map] using h.symm⟩

theorem chunkJoin_snd (c : List Nat) (evs0 : List Event)
    (r : Except ConvErr (List Nat × Option Image) × List Event) :
    (chunkJoin c evs0 r).2 = evs0 ++ r.2 := by
  obtain ⟨x, evs⟩ := r
  cases x with
  | error e => rfl
  | ok p => obtain ⟨body, cache⟩ := p; rfl

/-- Characterization of the encoder's size loop: when every payload the spec
prescribes for the retained sizes is obtainable, the loop returns exactly
the concatenated spec chunk groups of those sizes (in order), with the
master-image cache invariants carried through. -/
theorem convertLoop_spec (env : Env) (info : InputFileInfo) (payload : Nat → List Nat) :
    ∀ (sizes : List Nat) (cache : Option Image),
      (cache = none → info.maxImage = none) →
      (∀ img, cache = some img → masterImageOf env info = .ok img) →
      (∀ s ∈ sizes.filter (fun s => decide (s ≤ info.MaxIconSize)),
        specPayload env info s = .ok (payload s)) →
      ∃ cache' evs,
        convertLoop env info.SizeToPath info.MaxIconPath info.MaxIconSize sizes cache =
          (.ok (((sizes.filter (fun s => decide (s ≤ info.MaxIconSize))).map
            (fun s => specSizeChunks s (payload s))).flatten, cache'), evs) ∧
        (cache' = none → info.maxImage = none) ∧
        (∀ img, cache' = some img → masterImageOf env info = .ok img) := by
  intro sizes
  induction sizes with
  | nil =>
    intro cache h1 h2 _
    exact ⟨cache, [], rfl, h1, h2⟩
  | cons size rest ih =>
    intro cache h1 h2 hpay
    by_cases hgt : info.MaxIconSize < size
    · have hd : (decide (size ≤ info.MaxIconSize)) = false := by
        simp; omega
      have hpay' : ∀ s ∈ rest.filter (fun s => decide (s ≤ info.MaxIconSize)),
          specPayload env info s = .ok (payload s) := by
        intro s hs
        exact hpay s (by rw [List.filter_cons, hd]; simpa using hs)
      obtain ⟨cache', evs, heq, h1', h2'⟩ := ih cache h1 h2 hpay'
      refine ⟨cache', evs, ?_, h1', h2'⟩
      rw [convertLoop, if_pos hgt, heq, List.filter_cons, hd]
      simp
    · have hd : (decide (size ≤ info.MaxIconSize)) = true := by
        simp; omega
      have hmem : size ∈ (size :: rest).filter (fun s => decide (s ≤ info.MaxIconSize)) := by
        rw [List.filter_cons, hd]; simp
      have hsize := hpay size hmem
      have hpay' : ∀ s ∈ rest.filter (fun s => decide (s ≤ info.MaxIconSize)),
          specPayload env info s = .ok (payload s) := by
        intro s hs
        exact hpay s (by rw [List.filter_cons, hd]; simp [hs])
      obtain ⟨cache2, evs2, hacq, h1n, h2n⟩ :
          ∃ cache2 evs2,
            acquirePayload env info.SizeToPath info.MaxIconPath size cache =
              (.ok (payload size, cache2), evs2) ∧
            (cache2 = none → info.maxImage = none) ∧
            (∀ img, cache2 = some img → masterImageOf env info = .ok img) := by
        cases hstp : info.SizeToPath size with
        | some existingFile =>
          simp only [specPayload, hstp] at hsize
          refine ⟨cache, [], ?_, h1, h2⟩
          simp [acquirePayload, hstp, hsize]
        | none =>
          simp only [specPayload, hstp] at hsize
          obtain ⟨m, hm, hpm⟩ := exceptMap_ok hsize
          cases hcache : cache with
          | some img =>
            have hmaster : masterImageOf env info = .ok img := h2 img hcache
            have himg : m = img := by
              rw [hmaster] at hm
              cases hm
              rfl
            subst himg
            refine ⟨some m, [], ?_, ?_, ?_⟩
            · simp [acquirePayload, hstp, hpm]
            · intro h
              cases h
            · intro i hi
              cases hi
              exact hmaster
          | none =>
            have hmax : info.maxImage = none := h1 hcache
            have hload : env.loadImageFile info.MaxIconPath = .ok m := by
              rw [masterImageOf, hmax] at hm
              exact hm
            refine ⟨some m, [Event.decode info.MaxIconPath], ?_, ?_, ?_⟩
            · simp [acquirePayload, hstp, hload, hpm]
            · intro h
              cases h
            · intro i hi
              cases hi
              rw [masterImageOf, hmax]
              exact hload
      obtain ⟨cache', evs, heq, h1', h2'⟩ := ih cache2 h1n h2n hpay'
      refine ⟨cache', evs2 ++ evs, ?_, h1', h2'⟩
      rw [convertLoop, if_neg hgt, hacq]
      simp [heq, List.filter_cons, hd, chunkJoin, writeTags_eq, specSizeChunks]

/-- The encoder `ConvertToIcns` produces exactly the spec-shaped container whenever the
spec-prescribed payload of every included size is obtainable. -/
theorem convertToIcns_spec (env : Env) (info : InputFileInfo) (payload : Nat → List Nat)
    (hpay : ∀ s ∈ includedSizes info.MaxIconSize, specPayload env info s = .ok (payload s)) :
    (ConvertToIcns env info).1 =
      .ok (env.tempFile ".icns", specFile info.MaxIconSize payload) := by
  have hpay' : ∀ s ∈ icnsExpectedSizes.filter (fun s => decide (s ≤ info.MaxIconSize)),
      specPayload env info s = .ok (payload s) := by
    simpa [includedSizes] using hpay
  obtain ⟨cache', evs, heq, -, -⟩ :=
    convertLoop_spec env info payload icnsExpectedSizes info.maxImage
      (fun h => h) (fun img h => by simp [masterImageOf, h]) hpay'
  rw [ConvertToIcns, heq]
  simp [specFile, specBody, includedSizes]

theorem beDecode_beUint32 (n : Nat) (h : n < 2 ^ 32) : beDecode (beUint32 n) = n := by
  simp only [beDecode, beUint32, List.foldl]
  omega

/-- C1. For every ascending list of included canonical sizes and payload
bytes per size, the ICNS encoder's output is exactly: the 4 magic bytes
`icns`, a 4-byte big-endian total-length field equal to body length + 8
(hence to the whole file length), then for each included size in ascending
order and each of its OSType tags in catalog order a chunk of the 4 ASCII
tag bytes, a big-endian `payload length + 8` field, and the payload bytes
verbatim, with alias tags of a size carrying physically duplicated
byte-identical payloads (the duplication is intrinsic to `specSizeChunks`,
which repeats the same payload bytes for every tag). -/
theorem c1_icns_container_layout (env : Env) (info : InputFileInfo) (payload : Nat → List Nat)
    (hpay : ∀ s ∈ includedSizes info.MaxIconSize, specPayload env info s = .ok (payload s))
    (hsize : (specBody info.MaxIconSize payload).length + 8 < 2 ^ 32) :
    (ConvertToIcns env info).1 =
      .ok (env.tempFile ".icns",
        icnsMagic ++ beUint32 ((specBody info.MaxIconSize payload).length + 8) ++
          specBody info.MaxIconSize payload) ∧
    (specFile info.MaxIconSize payload).length =
      (specBody info.MaxIconSize payload).length + 8 ∧
    beDecode (beUint32 ((specBody info.MaxIconSize payload).length + 8)) =
      (specFile info.MaxIconSize payload).length := by
  have hlen : (specFile info.MaxIconSize payload).length =
      (specBody info.MaxIconSize payload).length + 8 := by
    simp [specFile, icnsMagic, beUint32]
  refine ⟨convertToIcns_spec env info payload hpay, hlen, ?_⟩
  rw [beDecode_beUint32 _ hsize, hlen]

/-- Concrete scenario for the C1 witness: a 16-pixel master whose single
included size has a pre-rendered file of bytes `[1, 2, 3]`. -/
def envC1 : Env :=
  { baseEnv with readFile := fun f => if f = "/f16.png" then .ok [1, 2, 3] else .error () }

def infoC1 : InputFileInfo where
  MaxIconSize := 16
  MaxIconPath := "/master.png"
  SizeToPath := fun s => if s = 16 then some "/f16.png" else none
  maxImage := none
  recommendedMinSize := 512

theorem c1_icns_container_layout_witness :
    (∀ s ∈ includedSizes infoC1.MaxIconSize,
      specPayload envC1 infoC1 s = .ok ((fun _ => [1, 2, 3]) s)) ∧
    ((specBody infoC1.MaxIconSize (fun _ => [1, 2, 3])).length + 8 < 2 ^ 32) ∧
    ((ConvertToIcns envC1 infoC1).1 =
      .ok (envC1.tempFile ".icns",
        icnsMagic ++ beUint32 ((specBody infoC1.MaxIconSize (fun _ => [1, 2, 3])).length + 8) ++
          specBody infoC1.MaxIconSize (fun _ => [1, 2, 3]))) :=
  ⟨by decide, by decide,
    (c1_icns_container_layout envC1 infoC1 (fun _ => [1, 2, 3]) (by decide) (by decide)).1⟩

/-- C2. Never-upscale: the encoder emits chunks exactly for the catalog
sizes not exceeding the master size `M` (every included size is ≤ M, sizes
above M are omitted), and for a master of dimension 300 the included sizes
are exactly {16, 32, 64, 128, 256} — 512 and 1024 are absent. -/
theorem c2_never_upscale (env : Env) (info : InputFileInfo) (payload : Nat → List Nat)
    (hpay : ∀ s ∈ includedSizes info.MaxIconSize, specPayload env info s = .ok (payload s)) :
    (ConvertToIcns env info).1 =
      .ok (env.tempFile ".icns", specFile info.MaxIconSize payload) ∧
    (∀ s ∈ includedSizes info.MaxIconSize, s ≤ info.MaxIconSize) ∧
    includedSizes 300 = [16, 32, 64, 128, 256] := by
  refine ⟨convertToIcns_spec env info payload hpay, ?_, by decide⟩
  intro s hs
  simp [includedSizes, List.mem_filter] at hs
  exact hs.2

/-- Concrete scenario for the C2 witness: a 300-pixel master with no
pre-rendered per-size files, every payload synthesized from the master. -/
def envC2 : Env :=
  { baseEnv with loadImageFile := fun p => if p = "/m.png" then .ok ⟨300, 300⟩ else .error () }

def infoC2 : InputFileInfo where
  MaxIconSize := 300
  MaxIconPath := "/m.png"
  SizeToPath := fun _ => none
  maxImage := none
  recommendedMinSize := 512

theorem c2_never_upscale_witness :
    (∀ s ∈ includedSizes infoC2.MaxIconSize,
      specPayload envC2 infoC2 s = .ok ((fun _ => [7, 7]) s)) ∧
    ((ConvertToIcns envC2 infoC2).1 =
      .ok (envC2.tempFile ".icns", specFile infoC2.MaxIconSize (fun _ => [7, 7])) ∧
    (∀ s ∈ includedSizes infoC2.MaxIconSize, s ≤ infoC2.MaxIconSize) ∧
    includedSizes 300 = [16, 32, 64, 128, 256]) :=
  ⟨by decide, c2_never_upscale envC2 infoC2 (fun _ => [7, 7]) (by decide)⟩

/-- C7 — amended claim. Chunk payloads synthesized from the master are
PNG-encoded after resizing, but a payload taken from a pre-existing
per-size file is that file's bytes verbatim — the encoder never re-encodes
stored assets, whatever their format, so a non-PNG stored file's bytes do
appear verbatim as a chunk payload. -/
theorem c7_payload_sources_amended (env : Env) (info : InputFileInfo) (payload : Nat → List Nat)
    (hpay : ∀ s ∈ includedSizes info.MaxIconSize, specPayload env info s = .ok (payload s)) :
    (ConvertToIcns env info).1 =
      .ok (env.tempFile ".icns", specFile info.MaxIconSize payload) ∧
    (∀ s ∈ includedSizes info.MaxIconSize,
      (∀ f, info.SizeToPath s = some f → env.readFile f = .ok (payload s)) ∧
      (info.SizeToPath s = none →
        ∃ m, masterImageOf env info = .ok m ∧
          payload s = env.pngEncode (env.resize m s s))) := by
  refine ⟨convertToIcns_spec env info payload hpay, ?_⟩
  intro s hs
  have h := hpay s hs
  constructor
  · intro f hf
    simpa only [specPayload, hf] using h
  · intro hn
    simp only [specPayload, hn] at h
    exact exceptMap_ok h

/-- Scenario refuting C7 as stated: size 16 has a pre-rendered file
`/icon.jpg` whose bytes `[9, 9, 9]` are not a PNG encoder output (this
model's PNG encoder always yields `[7, 7]`). -/
def envC7 : Env :=
  { baseEnv with readFile := fun f => if f = "/icon.jpg" then .ok [9, 9, 9] else .error () }

def infoC7 : InputFileInfo where
  MaxIconSize := 16
  MaxIconPath := ""
  SizeToPath := fun s => if s = 16 then some "/icon.jpg" else none
  maxImage := none
  recommendedMinSize := 512

/-- C7 — counterexample. The claim says a stored asset that is not already
a raw encodable image is re-encoded to the required (PNG) payload form, so
a non-PNG source file's bytes never appear verbatim.  In this run the
single chunk (tag `icp4`, bytes 8–11 of the output) carries exactly the
stored file's raw bytes `[9, 9, 9]` — unchanged, and distinct from every
PNG encoding this model can produce (`[7, 7]`). -/
theorem c7_raw_bytes_verbatim_cex :
    (ConvertToIcns envC7 infoC7).1 =
      .ok ("/tmp/out.icns",
        [105, 99, 110, 115, 0, 0, 0, 19, 105, 99, 112, 52, 0, 0, 0, 11, 9, 9, 9]) ∧
    envC7.readFile "/icon.jpg" = .ok [9, 9, 9] ∧
    envC7.pngEncode ⟨16, 16⟩ = [7, 7] := by
  refine ⟨by decide, by decide, by decide⟩

theorem c7_payload_sources_amended_witness :
    (∀ s ∈ includedSizes infoC1.MaxIconSize,
      specPayload envC1 infoC1 s = .ok ((fun _ => [1, 2, 3]) s)) ∧
    ((ConvertToIcns envC1 infoC1).1 =
      .ok (envC1.tempFile ".icns", specFile infoC1.MaxIconSize (fun _ => [1, 2, 3])) ∧
    (∀ s ∈ includedSizes infoC1.MaxIconSize,
      (∀ f, infoC1.SizeToPath s = some f → envC1.readFile f = .ok [1, 2, 3]) ∧
      (infoC1.SizeToPath s = none →
        ∃ m, masterImageOf envC1 infoC1 = .ok m ∧
          [1, 2, 3] = envC1.pngEncode (envC1.resize m s s)))) :=
  ⟨by decide, c7_payload_sources_amended envC1 infoC1 (fun _ => [1, 2, 3]) (by decide)⟩

/-- C5. Passthrough law: when the target format is `icns` and the resolved
source path already ends in `.icns`, `ConvertIcon` returns that resolved
path unchanged as the single artifact with no associated size (size field
0), and performs no size validation — the event trace is empty: no
validation probe, no decode, no output file. -/
theorem c5_icns_passthrough (env : Env) (sourceFiles roots : List String) (p : String)
    (fi : FileInfo)
    (hres : resolveSourceFile env sourceFiles roots ".icns" = .ok (p, fi))
    (hsuf : hasSuffix p ".icns" = true) :
    ConvertIcon env sourceFiles roots "icns" = (.ok [⟨p, 0⟩], []) := by
  have hres' : resolveSourceFile env sourceFiles roots
      (outputFormatToSingleFileExtension "icns") = .ok (p, fi) := hres
  have hsuf' : hasSuffix p (outputFormatToSingleFileExtension "icns") = true := hsuf
  simp only [ConvertIcon, hres', hsuf', if_true, ne_eq, not_true_eq_false, if_false, ite_false]

/-- Concrete scenario for the C5 witness: an absolute `.icns` source. -/
def envC5 : Env :=
  { baseEnv with
    stat := fun s => if s = "/r/icon.icns" then some ⟨false⟩ else none
    isAbs := fun s => s = "/r/icon.icns" }

theorem c5_icns_passthrough_witness :
    resolveSourceFile envC5 ["/r/icon.icns"] [] ".icns" = .ok ("/r/icon.icns", ⟨false⟩) ∧
    hasSuffix "/r/icon.icns" ".icns" = true ∧
    ConvertIcon envC5 ["/r/icon.icns"] [] "icns" = (.ok [⟨"/r/icon.icns", 0⟩], []) :=
  ⟨by decide, by decide,
    c5_icns_passthrough envC5 ["/r/icon.icns"] [] "/r/icon.icns" ⟨false⟩ (by decide) (by decide)⟩

/-- C4. Minimum-size rejection: when a single raw image is loaded directly
as the master (not a passthrough, not a directory, not the set/icns special
case), the conversion fails with the size error carrying the file path and
the required minimum — 512 for `icns` targets, 256 otherwise — whenever the
decoded width or height is below that minimum; the trace shows only the
decode: no temp file and no encoder invocation, so no output is produced. -/
theorem c4_minimum_size_rejection (env : Env) (sourceFiles roots : List String)
    (outputFormat p : String) (fi : FileInfo) (img : Image)
    (hres : resolveSourceFile env sourceFiles roots
      (outputFormatToSingleFileExtension outputFormat) = .ok (p, fi))
    (hsuf : hasSuffix p (outputFormatToSingleFileExtension outputFormat) = false)
    (hdir : fi.isDir = false)
    (hnset : ¬(outputFormat = "set" ∧ hasSuffix p ".icns" = true))
    (hload : env.loadImageFile p = .ok img)
    (hsmall : img.width < (if outputFormat = "icns" then 512 else 256) ∨
      img.height < (if outputFormat = "icns" then 512 else 256)) :
    ConvertIcon env sourceFiles roots outputFormat =
      (.error (.imageSizeError p (if outputFormat = "icns" then 512 else 256)),
        [Event.decode p]) := by
  simp only [ConvertIcon, hres, hsuf, hdir, Bool.false_eq_true, if_false, ite_false]
  rw [if_neg hnset]
  simp only [loadImage, LoadImage, hload]
  rw [if_pos hsmall]

/-- Concrete scenario for the C4 witness: a 128×128 source requested as ICO. -/
def envC4 : Env :=
  { baseEnv with
    stat := fun s => if s = "/r/icon.png" then some ⟨false⟩ else none
    isAbs := fun s => s = "/r/icon.png"
    loadImageFile := fun s => if s = "/r/icon.png" then .ok ⟨128, 128⟩ else .error () }

theorem c4_minimum_size_rejection_witness :
    resolveSourceFile envC4 ["/r/icon.png"] [] ".ico" = .ok ("/r/icon.png", ⟨false⟩) ∧
    hasSuffix "/r/icon.png" ".ico" = false ∧
    envC4.loadImageFile "/r/icon.png" = .ok ⟨128, 128⟩ ∧
    ConvertIcon envC4 ["/r/icon.png"] [] "ico" =
      (.error (.imageSizeError "/r/icon.png" 256), [Event.decode "/r/icon.png"]) :=
  ⟨by decide, by decide, by decide, by
    have h := c4_minimum_size_rejection envC4 ["/r/icon.png"] [] "ico" "/r/icon.png"
      ⟨false⟩ ⟨128, 128⟩ (by decide) (by decide) (by decide)
      (by intro hc; exact absurd hc.1 (by decide)) (by decide) (by decide)
    simpa using h⟩

/-- C6. ICO cap: for a single-image conversion targeting `ico`, a decoded
master wider than 256 is replaced by the 256×256 high-quality resize before
encoding — the image handed to the ICO writer is `resize master 256 256`,
of exactly 256×256 under the resize collaborator's dimension contract — and
a master of width ≤ 256 is handed to the writer at its native size. -/
theorem c6_ico_cap (env : Env) (sourceFiles roots : List String) (p : String)
    (fi : FileInfo) (img : Image)
    (hres : resolveSourceFile env sourceFiles roots ".ico" = .ok (p, fi))
    (hsuf : hasSuffix p ".ico" = false)
    (hdir : fi.isDir = false)
    (hload : env.loadImageFile p = .ok img)
    (hw : 256 ≤ img.width) (hh : 256 ≤ img.height)
    (hre : (env.resize img 256 256).width = 256 ∧ (env.resize img 256 256).height = 256)
    (hsave : ∀ i n, env.saveImage2 i n = .ok ()) :
    (256 < img.width →
      ConvertIcon env sourceFiles roots "ico" =
        (.ok [⟨env.tempFile ".ico", 0⟩],
          [Event.decode p, Event.tmpFile ".ico",
            Event.saveIco (env.resize img 256 256) (env.tempFile ".ico")]) ∧
      (env.resize img 256 256).width = 256 ∧ (env.resize img 256 256).height = 256) ∧
    (img.width ≤ 256 →
      ConvertIcon env sourceFiles roots "ico" =
        (.ok [⟨env.tempFile ".ico", 0⟩],
          [Event.decode p, Event.tmpFile ".ico", Event.saveIco img (env.tempFile ".ico")])) := by
  have hres' : resolveSourceFile env sourceFiles roots
      (outputFormatToSingleFileExtension "ico") = .ok (p, fi) := hres
  have hsuf' : hasSuffix p (outputFormatToSingleFileExtension "ico") = false := hsuf
  have hnotsmall : ¬(img.width < (if ("ico" : String) = "icns" then 512 else 256) ∨
      img.height < (if ("ico" : String) = "icns" then 512 else 256)) := by
    rw [show (if ("ico" : String) = "icns" then (512 : Nat) else 256) = 256 from rfl]
    omega
  constructor
  · intro hgt
    refine ⟨?_, hre⟩
    simp only [ConvertIcon, hres', hsuf', hdir, Bool.false_eq_true, if_false, ite_false]
    rw [if_neg (by intro hc; exact absurd hc.1 (by decide))]
    simp only [loadImage, LoadImage, hload]
    rw [if_neg hnotsmall]
    simp [dispatchFormat, GetMaxImage, singleInputInfo, hsave, hgt]
  · intro hle
    simp only [ConvertIcon, hres', hsuf', hdir, Bool.false_eq_true, if_false, ite_false]
    rw [if_neg (by intro hc; exact absurd hc.1 (by decide))]
    simp only [loadImage, LoadImage, hload]
    rw [if_neg hnotsmall]
    simp [dispatchFormat, GetMaxImage, singleInputInfo, hsave,
      show ¬(256 < img.width) by omega]

/-- Concrete scenario for the C6 witness: a 1024×1024 master requested as ICO. -/
def envC6 : Env :=
  { baseEnv with
    stat := fun s => if s = "/r/big.png" then some ⟨false⟩ else none
    isAbs := fun s => s = "/r/big.png"
    loadImageFile := fun s => if s = "/r/big.png" then .ok ⟨1024, 1024⟩ else .error () }

theorem c6_ico_cap_witness :
    resolveSourceFile envC6 ["/r/big.png"] [] ".ico" = .ok ("/r/big.png", ⟨false⟩) ∧
    envC6.loadImageFile "/r/big.png" = .ok ⟨1024, 1024⟩ ∧
    (ConvertIcon envC6 ["/r/big.png"] [] "ico" =
      (.ok [⟨envC6.tempFile ".ico", 0⟩],
        [Event.decode "/r/big.png", Event.tmpFile ".ico",
          Event.saveIco (envC6.resize ⟨1024, 1024⟩ 256 256) (envC6.tempFile ".ico")]) ∧
      (envC6.resize ⟨1024, 1024⟩ 256 256).width = 256 ∧
      (envC6.resize ⟨1024, 1024⟩ 256 256).height = 256) :=
  ⟨by decide, by decide,
    (c6_ico_cap envC6 ["/r/big.png"] [] "/r/big.png" ⟨false⟩ ⟨1024, 1024⟩
      (by decide) (by decide) (by decide) (by decide) (by decide) (by decide)
      (by decide) (fun _ _ => rfl)).1 (by decide)⟩

/-- C9 — amended claim. For a conversion whose requested output format is
none of `icns`, `ico`, `set`, and whose resolved source is a plain file
that does not bear the format's extension, the pipeline fails — once the
master image loads and passes the 256-pixel policy — with an error whose
message is `unknown output format ` followed by the *resolved source path*
(the requested format itself does not appear in the message), and returns
no artifacts.  A resolved source already bearing the unrecognized format's
extension is instead passed through (with a size validation) rather than
rejected. -/
theorem c9_unknown_format_amended (env : Env) (sourceFiles roots : List String)
    (outputFormat p : String) (fi : FileInfo) (img : Image)
    (hficns : outputFormat ≠ "icns") (hfico : outputFormat ≠ "ico")
    (hfset : outputFormat ≠ "set")
    (hres : resolveSourceFile env sourceFiles roots
      (outputFormatToSingleFileExtension outputFormat) = .ok (p, fi))
    (hsuf : hasSuffix p (outputFormatToSingleFileExtension outputFormat) = false)
    (hdir : fi.isDir = false)
    (hload : env.loadImageFile p = .ok img)
    (hw : 256 ≤ img.width) (hh : 256 ≤ img.height) :
    ConvertIcon env sourceFiles roots outputFormat =
      (.error (.unknownFormat ("unknown output format " ++ p)), [Event.decode p]) := by
  simp only [ConvertIcon, hres, hsuf, hdir, Bool.false_eq_true, if_false, ite_false]
  rw [if_neg (fun hc => absurd hc.1 hfset)]
  simp only [loadImage, LoadImage, hload]
  simp only [if_neg hficns]
  rw [if_neg (show ¬(img.width < 256 ∨ img.height < 256) by omega)]
  simp [dispatchFormat, if_neg hficns, if_neg hfico,
    show ¬(outputFormat = "ico" ∧ 256 < img.width) from fun hc => absurd hc.1 hfico]

/-- C9 — counterexample scenario: an unrecognized format `webp` whose
resolved source `/r/icon.webp` already ends in `.webp`, and sniffs as a
300×300 raster. -/
def envC9 : Env :=
  { baseEnv with
    stat := fun s => if s = "/r/icon.webp" then some ⟨false⟩ else none
    isAbs := fun s => s = "/r/icon.webp"
    readFirstBytes := fun s _ => if s = "/r/icon.webp" then .ok [0, 0] else .error ()
    decodeImageConfig := fun s => if s = "/r/icon.webp" then .ok (300, 300) else .error () }

/-- C9 — counterexample. The claim says every conversion with an
unrecognized requested format fails immediately with an error naming the
resolved path and the requested format and returns no artifacts.  Here the
requested format `webp` is unrecognized, yet the conversion *succeeds*,
returning the resolved path as an artifact after a size validation —
no error of any kind is raised. -/
theorem c9_unknown_format_cex :
    ConvertIcon envC9 ["/r/icon.webp"] [] "webp" =
      (.ok [⟨"/r/icon.webp", 0⟩], [Event.validate "/r/icon.webp"]) := by
  decide

/-- Concrete scenario for the C9 witness: format `webp`, source `/r/icon`
without the `.webp` suffix, decoding to a 300×300 image. -/
def envC9b : Env :=
  { baseEnv with
    stat := fun s => if s = "/r/icon" then some ⟨false⟩ else none
    isAbs := fun s => s = "/r/icon"
    loadImageFile := fun s => if s = "/r/icon" then .ok ⟨300, 300⟩ else .error () }

theorem c9_unknown_format_amended_witness :
    resolveSourceFile envC9b ["/r/icon"] [] (outputFormatToSingleFileExtension "webp") =
      .ok ("/r/icon", ⟨false⟩) ∧
    hasSuffix "/r/icon" (outputFormatToSingleFileExtension "webp") = false ∧
    envC9b.loadImageFile "/r/icon" = .ok ⟨300, 300⟩ ∧
    ¬ List.IsInfix "webp".toList ("unknown output format /r/icon").toList ∧
    ConvertIcon envC9b ["/r/icon"] [] "webp" =
      (.error (.unknownFormat ("unknown output format " ++ "/r/icon")),
        [Event.decode "/r/icon"]) :=
  ⟨by decide, by decide, by decide, by decide,
    c9_unknown_format_amended envC9b ["/r/icon"] [] "webp" "/r/icon" ⟨false⟩ ⟨300, 300⟩
      (by decide) (by decide) (by decide) (by decide) (by decide) (by decide)
      (by decide) (by decide) (by decide)⟩

/-- Recognizer for decode events (invocations of the raw decoder). -/
def Event.isDecode : Event → Bool
  | .decode _ => true
  | _ => false

/-- Recognizer for size-validation events. -/
def Event.isValidate : Event → Bool
  | .validate _ => true
  | _ => false

/-- Number of raw-decoder invocations recorded in a trace. -/
def decodeCount (evs : List Event) : Nat :=
  (evs.filter Event.isDecode).length

theorem decodeCount_append (a b : List Event) :
    decodeCount (a ++ b) = decodeCount a + decodeCount b := by
  simp [decodeCount, List.filter_append]


/-- A populated cache is never decoded again: the size loop performs no
decoder invocation when it starts with a cached master image. -/
theorem convertLoop_cached_no_decode (env : Env) (stp : Nat → Option String)
    (maxIconPath : String) (maxIconSize : Nat) :
    ∀ (sizes : List Nat) (img : Image),
      decodeCount (convertLoop env stp maxIconPath maxIconSize sizes (some img)).2 = 0 := by
  intro sizes
  induction sizes with
  | nil => intro img; rfl
  | cons size rest ih =>
    intro img
    rw [convertLoop]
    by_cases hgt : maxIconSize < size
    · rw [if_pos hgt]
      exact ih img
    · rw [if_neg hgt]
      cases hstp : stp size with
      | some f =>
        cases hread : env.readFile f with
        | error e =>
          simp [acquirePayload, hstp, hread, decodeCount]
        | ok data =>
          simp [acquirePayload, hstp, hread, chunkJoin_snd, decodeCount_append, ih img]
      | none =>
        simp [acquirePayload, hstp, chunkJoin_snd, decodeCount_append, ih img]

/-- The size loop decodes the master at most once, whatever the starting
cache. -/
theorem convertLoop_decode_le_one (env : Env) (stp : Nat → Option String)
    (maxIconPath : String) (maxIconSize : Nat) :
    ∀ (sizes : List Nat) (cache : Option Image),
      decodeCount (convertLoop env stp maxIconPath maxIconSize sizes cache).2 ≤ 1 := by
  intro sizes
  induction sizes with
  | nil => intro cache; simp [convertLoop, decodeCount]
  | cons size rest ih =>
    intro cache
    rw [convertLoop]
    by_cases hgt : maxIconSize < size
    · rw [if_pos hgt]
      exact ih cache
    · rw [if_neg hgt]
      cases hstp : stp size with
      | some f =>
        cases hread : env.readFile f with
        | error e =>
          simp [acquirePayload, hstp, hread, decodeCount]
        | ok data =>
          have := ih cache
          simp [acquirePayload, hstp, hread, chunkJoin_snd, decodeCount_append]
          omega
      | none =>
        cases cache with
        | some img =>
          simp [acquirePayload, hstp, chunkJoin_snd, decodeCount_append,
            convertLoop_cached_no_decode env stp maxIconPath maxIconSize rest img]
        | none =>
          cases hload : env.loadImageFile maxIconPath with
          | error e =>
            simp [acquirePayload, hstp, hload, decodeCount, Event.isDecode]
          | ok img =>
            have h0 := convertLoop_cached_no_decode env stp maxIconPath maxIconSize rest img
            simp only [decodeCount] at h0
            simp [acquirePayload, hstp, hload, chunkJoin_snd, decodeCount,
              Event.isDecode, List.filter_cons, h0]

theorem validateImageSize_snd (env : Env) (f : String) (m : Nat) :
    (validateImageSize env f m).2 = [Event.validate f] := by
  unfold validateImageSize
  split
  · rfl
  · split
    · split
      · rfl
      · rfl
    · split
      · rfl
      · split
        · rfl
        · rfl

theorem loadImage_snd (env : Env) (f : String) (m : Nat) :
    (loadImage env f m).2 = [Event.decode f] := by
  cases h : env.loadImageFile f with
  | error e => simp [loadImage, LoadImage, h]
  | ok img =>
    simp only [loadImage, LoadImage, h]
    split
    · rfl
    · rfl

theorem GetMaxImage_cached (env : Env) (info : InputFileInfo) (img : Image)
    (h : info.maxImage = some img) : GetMaxImage env info = (.ok img, []) := by
  simp [GetMaxImage, h]

theorem convertToIcns_decode_le_one (env : Env) (info : InputFileInfo) :
    decodeCount (ConvertToIcns env info).2 ≤ 1 := by
  have hb := convertLoop_decode_le_one env info.SizeToPath info.MaxIconPath info.MaxIconSize
    icnsExpectedSizes info.maxImage
  unfold ConvertToIcns
  cases hcl : convertLoop env info.SizeToPath info.MaxIconPath info.MaxIconSize
      icnsExpectedSizes info.maxImage with
  | mk r evs =>
    rw [hcl] at hb
    cases r with
    | error e => exact hb
    | ok pr =>
      obtain ⟨body, cache⟩ := pr
      show decodeCount (evs ++ [Event.tmpFile ".icns"]) ≤ 1
      rw [decodeCount_append]
      have h2 : decodeCount [Event.tmpFile ".icns"] = 0 := rfl
      have hb' : decodeCount evs ≤ 1 := hb
      omega

theorem convertToIcns_cached_no_decode (env : Env) (info : InputFileInfo) (img : Image)
    (h : info.maxImage = some img) : decodeCount (ConvertToIcns env info).2 = 0 := by
  have hb := convertLoop_cached_no_decode env info.SizeToPath info.MaxIconPath info.MaxIconSize
    icnsExpectedSizes img
  unfold ConvertToIcns
  rw [h]
  cases hcl : convertLoop env info.SizeToPath info.MaxIconPath info.MaxIconSize
      icnsExpectedSizes (some img) with
  | mk r evs =>
    rw [hcl] at hb
    cases r with
    | error e => exact hb
    | ok pr =>
      obtain ⟨body, cache⟩ := pr
      show decodeCount (evs ++ [Event.tmpFile ".icns"]) = 0
      rw [decodeCount_append]
      have h2 : decodeCount [Event.tmpFile ".icns"] = 0 := rfl
      have hb' : decodeCount evs = 0 := hb
      omega

theorem dispatch_cached_no_decode (env : Env) (info : InputFileInfo) (p fmt : String)
    (img : Image) (h : info.maxImage = some img) :
    decodeCount (dispatchFormat env info p fmt).2 = 0 := by
  unfold dispatchFormat
  by_cases hi : fmt = "icns"
  · rw [if_pos hi]
    have h0 := convertToIcns_cached_no_decode env info img h
    cases hcl : ConvertToIcns env info with
    | mk r evs =>
      rw [hcl] at h0
      cases r with
      | error e => exact h0
      | ok pr =>
        obtain ⟨file, bytes⟩ := pr
        exact h0
  · rw [if_neg hi]
    by_cases ho : fmt = "ico"
    · rw [if_pos ho, GetMaxImage_cached env info img h]
      cases hs : env.saveImage2 img (env.tempFile ".ico") with
      | error e => simp [hs, decodeCount, Event.isDecode]
      | ok u => simp [hs, decodeCount, Event.isDecode]
    · rw [if_neg ho]
      simp [decodeCount]

theorem dispatch_decode_le_one (env : Env) (info : InputFileInfo) (p fmt : String) :
    decodeCount (dispatchFormat env info p fmt).2 ≤ 1 := by
  unfold dispatchFormat
  by_cases hi : fmt = "icns"
  · rw [if_pos hi]
    have h0 := convertToIcns_decode_le_one env info
    cases hcl : ConvertToIcns env info with
    | mk r evs =>
      rw [hcl] at h0
      cases r with
      | error e => exact h0
      | ok pr =>
        obtain ⟨file, bytes⟩ := pr
        exact h0
  · rw [if_neg hi]
    by_cases ho : fmt = "ico"
    · rw [if_pos ho]
      cases hg : GetMaxImage env info with
      | mk r evs =>
        have hevs : decodeCount evs ≤ 1 := by
          cases hmi : info.maxImage with
          | some img =>
            rw [GetMaxImage_cached env info img hmi] at hg
            cases hg
            simp [decodeCount]
          | none =>
            have hsnd : (GetMaxImage env info).2 = [Event.decode info.MaxIconPath] := by
              unfold GetMaxImage
              rw [hmi]
              exact loadImage_snd env info.MaxIconPath info.recommendedMinSize
            rw [hg] at hsnd
            simp only at hsnd
            rw [hsnd]
            simp [decodeCount, Event.isDecode]
        cases r with
        | error e => exact hevs
        | ok img =>
          cases hs : env.saveImage2 img (env.tempFile ".ico") with
          | error e =>
            have h2 : decodeCount [Event.tmpFile ".ico",
              Event.saveIco img (env.tempFile ".ico")] = 0 := rfl
            simpa [hs, decodeCount_append, h2] using hevs
          | ok u =>
            have h2 : decodeCount [Event.tmpFile ".ico",
              Event.saveIco img (env.tempFile ".ico")] = 0 := rfl
            simpa [hs, decodeCount_append, h2] using hevs
    · rw [if_neg ho]
      simp [decodeCount]

theorem convertIcon_decode_le_one (env : Env) (sourceFiles roots : List String)
    (outputFormat : String) :
    decodeCount (ConvertIcon env sourceFiles roots outputFormat).2 ≤ 1 := by
  cases hres : resolveSourceFile env sourceFiles roots
      (outputFormatToSingleFileExtension outputFormat) with
  | error e => simp [ConvertIcon, hres, decodeCount]
  | ok pr =>
    obtain ⟨p, fi⟩ := pr
    by_cases hsuf : hasSuffix p (outputFormatToSingleFileExtension outputFormat) = true
    · by_cases hicns : outputFormat = "icns"
      · subst hicns
        simp [ConvertIcon, hres, hsuf, decodeCount]
      · cases hval : validateImageSize env p (if outputFormat = "icns" then 512 else 256) with
        | mk r evs =>
          have hv : evs = [Event.validate p] := by
            have := validateImageSize_snd env p (if outputFormat = "icns" then 512 else 256)
            rw [hval] at this
            exact this
          subst hv
          rw [if_neg hicns] at hval
          cases r with
          | error e =>
            simp [ConvertIcon, hres, hsuf, hicns, hval, decodeCount, Event.isDecode]
          | ok u =>
            simp [ConvertIcon, hres, hsuf, hicns, hval, decodeCount, Event.isDecode]
    · by_cases hdir : fi.isDir = true
      · cases hcoll : env.collectIcons p with
        | error e => simp [ConvertIcon, hres, hsuf, hdir, hcoll, decodeCount]
        | ok icons =>
          by_cases hset : outputFormat = "set"
          · subst hset
            simp [ConvertIcon, hres, hsuf, hdir, hcoll, decodeCount]
          · cases hlast : icons.getLast? with
            | none => simp [ConvertIcon, hres, hsuf, hdir, hcoll, hset, hlast, decodeCount]
            | some maxIcon =>
              have hd := dispatch_decode_le_one env
                (dirInputInfo icons maxIcon (if outputFormat = "icns" then 512 else 256))
                p outputFormat
              simpa [ConvertIcon, hres, hsuf, hdir, hcoll, hset, hlast] using hd
      · by_cases hsi : outputFormat = "set" ∧ hasSuffix p ".icns" = true
        · obtain ⟨hs1, hs2⟩ := hsi
          subst hs1
          cases hcp : env.convertIcnsToPng p with
          | error e => simp [ConvertIcon, hres, hsuf, hdir, hs2, hcp, decodeCount]
          | ok result => simp [ConvertIcon, hres, hsuf, hdir, hs2, hcp, decodeCount]
        · cases hload : loadImage env p (if outputFormat = "icns" then 512 else 256) with
          | mk r evs =>
            have hv : evs = [Event.decode p] := by
              have := loadImage_snd env p (if outputFormat = "icns" then 512 else 256)
              rw [hload] at this
              exact this
            subst hv
            cases r with
            | error e =>
              simp [ConvertIcon, hres, hsuf, hdir, hsi, hload, decodeCount, Event.isDecode]
            | ok img =>
              have hd := dispatch_cached_no_decode env
                (singleInputInfo p
                  (if outputFormat = "ico" ∧ 256 < img.width then env.resize img 256 256 else img)
                  (if outputFormat = "icns" then 512 else 256))
                p outputFormat
                (if outputFormat = "ico" ∧ 256 < img.width then env.resize img 256 256 else img)
                rfl
              simp only [decodeCount] at hd
              simp [ConvertIcon, hres, hsuf, hdir, hsi, hload, decodeCount, Event.isDecode,
                List.filter_cons, hd]

/-- C8. Master-image memoization: a whole conversion run records at most
one raw-decoder invocation in its trace; once an `InputFileInfo`'s lazy
master-image field is populated, `GetMaxImage` returns the cached image
without invoking the decoder, and the ICNS size loop of `ConvertToIcns`
performs no decoder invocation at all, however many sizes derive from the
master. -/
theorem c8_master_memoized (env : Env) (sourceFiles roots : List String)
    (outputFormat : String) (info : InputFileInfo) (img : Image)
    (hc : info.maxImage = some img) :
    decodeCount (ConvertIcon env sourceFiles roots outputFormat).2 ≤ 1 ∧
    GetMaxImage env info = (.ok img, []) ∧
    decodeCount (ConvertToIcns env info).2 = 0 :=
  ⟨convertIcon_decode_le_one env sourceFiles roots outputFormat,
    GetMaxImage_cached env info img hc,
    convertToIcns_cached_no_decode env info img hc⟩

/-- Concrete scenario for the C8 witness: an `InputFileInfo` whose master
image is already cached. -/
def infoC8 : InputFileInfo where
  MaxIconSize := 300
  MaxIconPath := "/m.png"
  SizeToPath := fun _ => none
  maxImage := some ⟨300, 300⟩
  recommendedMinSize := 512

theorem c8_master_memoized_witness :
    infoC8.maxImage = some ⟨300, 300⟩ ∧
    (decodeCount (ConvertIcon envC2 ["icon"] ["/r"] "icns").2 ≤ 1 ∧
      GetMaxImage envC2 infoC8 = (.ok ⟨300, 300⟩, []) ∧
      decodeCount (ConvertToIcns envC2 infoC8).2 = 0) :=
  ⟨rfl, c8_master_memoized envC2 ["icon"] ["/r"] "icns" infoC8 ⟨300, 300⟩ rfl⟩

theorem acquirePayload_error_kind (env : Env) (stp : Nat → Option String) (path : String)
    (size : Nat) (cache : Option Image) (e : ConvErr)
    (h : (acquirePayload env stp path size cache).1 = .error e) :
    e = ConvErr.ioError ∨ e = ConvErr.decodeError := by
  cases hstp : stp size with
  | some f =>
    cases hr : env.readFile f with
    | error e2 =>
      simp [acquirePayload, hstp, hr] at h
      exact Or.inl h.symm
    | ok data => simp [acquirePayload, hstp, hr] at h
  | none =>
    cases cache with
    | some img => simp [acquirePayload, hstp] at h
    | none =>
      cases hl : env.loadImageFile path with
      | error e2 =>
        simp [acquirePayload, hstp, hl] at h
        exact Or.inr h.symm
      | ok img => simp [acquirePayload, hstp, hl] at h

theorem chunkJoin_error_kind (c : List Nat) (evs0 : List Event)
    (r : Except ConvErr (List Nat × Option Image) × List Event) (e : ConvErr)
    (h : (chunkJoin c evs0 r).1 = .error e) : r.1 = .error e := by
  obtain ⟨x, evs⟩ := r
  cases x with
  | error e2 =>
    simp [chunkJoin] at h ⊢
    exact h
  | ok pr =>
    obtain ⟨body, cache⟩ := pr
    simp [chunkJoin] at h

theorem convertLoop_error_kind (env : Env) (stp : Nat → Option String) (path : String)
    (maxS : Nat) :
    ∀ (sizes : List Nat) (cache : Option Image) (e : ConvErr),
      (convertLoop env stp path maxS sizes cache).1 = .error e →
      e = ConvErr.ioError ∨ e = ConvErr.decodeError := by
  intro sizes
  induction sizes with
  | nil =>
    intro cache e h
    simp [convertLoop] at h
  | cons size rest ih =>
    intro cache e h
    rw [convertLoop] at h
    by_cases hgt : maxS < size
    · rw [if_pos hgt] at h
      exact ih cache e h
    · rw [if_neg hgt] at h
      cases hacq : acquirePayload env stp path size cache with
      | mk ar aevs =>
        rw [hacq] at h
        cases ar with
        | error e2 =>
          have he2 : (acquirePayload env stp path size cache).1 = .error e2 := by
            rw [hacq]
          have hkind := acquirePayload_error_kind env stp path size cache e2 he2
          have : e2 = e := by simpa using h
          rw [← this]
          exact hkind
        | ok pr =>
          obtain ⟨data, c2⟩ := pr
          have hjc : (chunkJoin (writeTags data (sizeToType size)) aevs
              (convertLoop env stp path maxS rest c2)).1 = .error e := h
          exact ih c2 e (chunkJoin_error_kind _ _ _ _ hjc)

theorem convertToIcns_error_kind (env : Env) (info : InputFileInfo) (e : ConvErr)
    (h : (ConvertToIcns env info).1 = .error e) :
    e = ConvErr.ioError ∨ e = ConvErr.decodeError := by
  unfold ConvertToIcns at h
  cases hcl : convertLoop env info.SizeToPath info.MaxIconPath info.MaxIconSize
      icnsExpectedSizes info.maxImage with
  | mk r evs =>
    rw [hcl] at h
    cases r with
    | error e2 =>
      have he2 : (convertLoop env info.SizeToPath info.MaxIconPath info.MaxIconSize
          icnsExpectedSizes info.maxImage).1 = .error e2 := by
        rw [hcl]
      have hkind := convertLoop_error_kind env info.SizeToPath info.MaxIconPath
        info.MaxIconSize icnsExpectedSizes info.maxImage e2 he2
      have : e2 = e := by simpa using h
      rw [← this]
      exact hkind
    | ok pr =>
      obtain ⟨body, cache⟩ := pr
      simp at h

theorem acquirePayload_snd (env : Env) (stp : Nat → Option String) (path : String)
    (size : Nat) (cache : Option Image) :
    (acquirePayload env stp path size cache).2 = [] ∨
    (acquirePayload env stp path size cache).2 = [Event.decode path] := by
  cases hstp : stp size with
  | some f =>
    cases hr : env.readFile f with
    | error e => simp [acquirePayload, hstp, hr]
    | ok data => simp [acquirePayload, hstp, hr]
  | none =>
    cases cache with
    | some img => simp [acquirePayload, hstp]
    | none =>
      cases hl : env.loadImageFile path with
      | error e => simp [acquirePayload, hstp, hl]
      | ok img => simp [acquirePayload, hstp, hl]

theorem convertLoop_no_validate (env : Env) (stp : Nat → Option String) (path : String)
    (maxS : Nat) :
    ∀ (sizes : List Nat) (cache : Option Image),
      (convertLoop env stp path maxS sizes cache).2.filter Event.isValidate = [] := by
  intro sizes
  induction sizes with
  | nil => intro cache; rfl
  | cons size rest ih =>
    intro cache
    rw [convertLoop]
    by_cases hgt : maxS < size
    · rw [if_pos hgt]
      exact ih cache
    · rw [if_neg hgt]
      cases hacq : acquirePayload env stp path size cache with
      | mk ar aevs =>
        have haevs : aevs = [] ∨ aevs = [Event.decode path] := by
          have := acquirePayload_snd env stp path size cache
          rw [hacq] at this
          exact this
        have hfa : aevs.filter Event.isValidate = [] := by
          rcases haevs with h | h <;> subst h <;> rfl
        cases ar with
        | error e => exact hfa
        | ok pr =>
          obtain ⟨data, c2⟩ := pr
          show ((chunkJoin (writeTags data (sizeToType size)) aevs
            (convertLoop env stp path maxS rest c2)).2).filter Event.isValidate = []
          rw [chunkJoin_snd, List.filter_append, hfa, ih c2]
          rfl

theorem convertToIcns_no_validate (env : Env) (info : InputFileInfo) :
    (ConvertToIcns env info).2.filter Event.isValidate = [] := by
  have hl := convertLoop_no_validate env info.SizeToPath info.MaxIconPath info.MaxIconSize
    icnsExpectedSizes info.maxImage
  unfold ConvertToIcns
  cases hcl : convertLoop env info.SizeToPath info.MaxIconPath info.MaxIconSize
      icnsExpectedSizes info.maxImage with
  | mk r evs =>
    rw [hcl] at hl
    cases r with
    | error e => exact hl
    | ok pr =>
      obtain ⟨body, cache⟩ := pr
      show (evs ++ [Event.tmpFile ".icns"]).filter Event.isValidate = []
      rw [List.filter_append, hl]
      rfl

theorem dispatch_icns_snd (env : Env) (info : InputFileInfo) (p : String) :
    (dispatchFormat env info p "icns").2 = (ConvertToIcns env info).2 := by
  unfold dispatchFormat
  rw [if_pos rfl]
  cases hct : ConvertToIcns env info with
  | mk r evs =>
    cases r with
    | error e => rfl
    | ok pr =>
      obtain ⟨file, bytes⟩ := pr
      rfl

/-- C10. Directory source with ICNS target: no minimum-size validation is
ever applied — the run's trace contains no validation probe (the master is
loaded inside the encoder through the raw, unchecked decoder), the
conversion can never fail with a size error, and whenever the encoder
succeeds (in particular for a directory whose largest icon is below the
512-pixel ICNS minimum, as the witness instantiates) the container artifact
is produced. -/
theorem c10_directory_icns_no_min_check (env : Env) (sourceFiles roots : List String)
    (p : String) (fi : FileInfo)
    (hres : resolveSourceFile env sourceFiles roots ".icns" = .ok (p, fi))
    (hsuf : hasSuffix p ".icns" = false)
    (hdir : fi.isDir = true) :
    (∀ f m, (ConvertIcon env sourceFiles roots "icns").1 ≠
      .error (.imageSizeError f m)) ∧
    ((ConvertIcon env sourceFiles roots "icns").2.filter Event.isValidate = []) ∧
    (∀ icons maxIcon name bytes evs,
      env.collectIcons p = .ok icons →
      icons.getLast? = some maxIcon →
      ConvertToIcns env (dirInputInfo icons maxIcon 512) = (.ok (name, bytes), evs) →
      ConvertIcon env sourceFiles roots "icns" = (.ok [⟨name, 0⟩], evs)) := by
  have hres' : resolveSourceFile env sourceFiles roots
      (outputFormatToSingleFileExtension "icns") = .ok (p, fi) := hres
  have hsuf' : hasSuffix p (outputFormatToSingleFileExtension "icns") = false := hsuf
  have hmain : ConvertIcon env sourceFiles roots "icns" =
      (match env.collectIcons p with
       | .error _ => (.error .ioError, [])
       | .ok icons =>
         match icons.getLast? with
         | none => (.error .outOfRange, [])
         | some maxIcon => dispatchFormat env (dirInputInfo icons maxIcon 512) p "icns") := by
    simp [ConvertIcon, hres', hsuf', hdir]
  refine ⟨?_, ?_, ?_⟩
  · intro f m hcontra
    rw [hmain] at hcontra
    cases hcoll : env.collectIcons p with
    | error e =>
      simp only [hcoll] at hcontra
      simp at hcontra
    | ok icons =>
      simp only [hcoll] at hcontra
      cases hlast : icons.getLast? with
      | none =>
        simp only [hlast] at hcontra
        simp at hcontra
      | some maxIcon =>
        simp only [hlast] at hcontra
        rw [show dispatchFormat env (dirInputInfo icons maxIcon 512) p "icns" =
          (match ConvertToIcns env (dirInputInfo icons maxIcon 512) with
           | (.error e, evs) => (.error e, evs)
           | (.ok (file, _), evs) => (.ok [⟨file, 0⟩], evs)) from by
            unfold dispatchFormat
            rw [if_pos rfl]] at hcontra
        cases hct : ConvertToIcns env (dirInputInfo icons maxIcon 512) with
        | mk r evs =>
          rw [hct] at hcontra
          cases r with
          | error e2 =>
            have he2 : (ConvertToIcns env (dirInputInfo icons maxIcon 512)).1 = .error e2 := by
              rw [hct]
            have hkind := convertToIcns_error_kind env (dirInputInfo icons maxIcon 512) e2 he2
            have heq : e2 = .imageSizeError f m := by simpa using hcontra
            rw [heq] at hkind
            rcases hkind with h | h <;> simp at h
          | ok pr =>
            obtain ⟨file, bytes⟩ := pr
            simp at hcontra
  · rw [hmain]
    cases hcoll : env.collectIcons p with
    | error e =>
      simp only [hcoll]
      rfl
    | ok icons =>
      simp only [hcoll]
      cases hlast : icons.getLast? with
      | none =>
        simp only [hlast]
        rfl
      | some maxIcon =>
        simp only [hlast]
        rw [dispatch_icns_snd]
        exact convertToIcns_no_validate env (dirInputInfo icons maxIcon 512)
  · intro icons maxIcon name bytes evs hcoll hlast hrun
    rw [hmain]
    simp only [hcoll, hlast]
    unfold dispatchFormat
    rw [if_pos rfl, hrun]

/-- Concrete scenario for the C10 witness: a directory with rendered sizes
16 and 300 — the largest icon (300) is below the 512-pixel ICNS minimum. -/
def envC10 : Env :=
  { baseEnv with
    stat := fun s => if s = "/r/dir" then some ⟨true⟩ else none
    isAbs := fun s => s = "/r/dir"
    collectIcons := fun d => if d = "/r/dir"
      then .ok [⟨"/r/dir/16.png", 16⟩, ⟨"/r/dir/300.png", 300⟩] else .error ()
    readFile := fun f => if f = "/r/dir/16.png" then .ok [1, 1] else .error ()
    loadImageFile := fun f => if f = "/r/dir/300.png" then .ok ⟨300, 300⟩ else .error () }

/-- The container bytes the C10 scenario emits: sizes 16 (stored file,
payload `[1, 1]`) and 32/64/128/256 (synthesized, payload `[7, 7]`),
sizes 512/1024 omitted. -/
def bytesC10 : List Nat :=
  [105, 99, 110, 115, 0, 0, 0, 88,
   105, 99, 112, 52, 0, 0, 0, 10, 1, 1,
   105, 99, 112, 53, 0, 0, 0, 10, 7, 7,
   105, 99, 49, 49, 0, 0, 0, 10, 7, 7,
   105, 99, 112, 54, 0, 0, 0, 10, 7, 7,
   105, 99, 49, 50, 0, 0, 0, 10, 7, 7,
   105, 99, 48, 55, 0, 0, 0, 10, 7, 7,
   105, 99, 48, 56, 0, 0, 0, 10, 7, 7,
   105, 99, 49, 51, 0, 0, 0, 10, 7, 7]

theorem c10_directory_icns_no_min_check_witness :
    resolveSourceFile envC10 ["/r/dir"] [] ".icns" = .ok ("/r/dir", ⟨true⟩) ∧
    hasSuffix "/r/dir" ".icns" = false ∧
    envC10.collectIcons "/r/dir" = .ok [⟨"/r/dir/16.png", 16⟩, ⟨"/r/dir/300.png", 300⟩] ∧
    (⟨"/r/dir/300.png", 300⟩ : IconInfo).size < 512 ∧
    ConvertToIcns envC10 (dirInputInfo [⟨"/r/dir/16.png", 16⟩, ⟨"/r/dir/300.png", 300⟩]
        ⟨"/r/dir/300.png", 300⟩ 512) =
      (.ok ("/tmp/out.icns", bytesC10),
        [Event.decode "/r/dir/300.png", Event.tmpFile ".icns"]) ∧
    ConvertIcon envC10 ["/r/dir"] [] "icns" =
      (.ok [⟨"/tmp/out.icns", 0⟩], [Event.decode "/r/dir/300.png", Event.tmpFile ".icns"]) :=
  ⟨by decide, by decide, by decide, by decide, by decide,
    (c10_directory_icns_no_min_check envC10 ["/r/dir"] [] "/r/dir" ⟨true⟩
      (by decide) (by decide) (by decide)).2.2
      [⟨"/r/dir/16.png", 16⟩, ⟨"/r/dir/300.png", 300⟩] ⟨"/r/dir/300.png", 300⟩
      "/tmp/out.icns" bytesC10 [Event.decode "/r/dir/300.png", Event.tmpFile ".icns"]
      (by decide) (by decide) (by decide)⟩
